import Mathlib

/-!
Shallow embedding of the request-tracking application
(`service_requests/models.py`, `views.py`, `api_views.py`,
`serializers.py`, `permissions.py`).

Strings on the Python side are modelled as Lean `String`; per-character
operations (slicing, upper-casing, space removal) act on `String.data`.
The object-relational store is a pair of lists of records.  Each endpoint
is a function from a store (plus its inputs) to a result paired with the
post-call store, so that "the store is unchanged" is directly expressible.
-/

namespace RequestTracker

/-- models.py lines 7-12: the status enumeration with display labels. -/
def STATUS_CHOICES : List (String × String) :=
  [("pending", "Pending"),
   ("in_progress", "In Progress"),
   ("resolved", "Resolved"),
   ("closed", "Closed")]

/-- models.py lines 14-22: the category enumeration with display labels. -/
def CATEGORY_CHOICES : List (String × String) :=
  [("password_reset", "Password Reset"),
   ("software_installation", "Software Installation"),
   ("hardware_issue", "Hardware Issue"),
   ("printer_issue", "Printer Issue"),
   ("network_issue", "Network Issue"),
   ("account_access", "Account Access"),
   ("other", "Other")]

/-- The machine keys of the status enumeration. -/
def statusKeys : List String := STATUS_CHOICES.map Prod.fst

/-- A Django auth user, reduced to the three attributes the permission
classes and the lifecycle engine read. -/
structure User where
  id : Nat
  is_authenticated : Bool
  is_staff : Bool
deriving DecidableEq

/-- models.py lines 24-31: a ServiceRequest row.  `assigned_to` is the
nullable foreign key to a user, held as the user id.  Note that the model
declares no requester_email column. -/
structure ServiceRequest where
  id : Nat
  requester_name : String
  department : String
  category : String
  description : String
  status : String
  assigned_to : Option Nat
deriving DecidableEq

/-- models.py lines 46-51: a Department row. -/
structure Department where
  id : Nat
  name : String
  code : String
  manager : String
deriving DecidableEq

/-- The relational store: both tables. -/
structure Store where
  requests : List ServiceRequest
  departments : List Department
deriving DecidableEq

/-- models.py lines 24-31: the field names actually declared on the
ServiceRequest model. -/
def serviceRequestModelFields : List String :=
  ["requester_name", "department", "category", "description",
   "status", "created_at", "updated_at", "assigned_to"]

/-- serializers.py line 67: the field list of ServiceRequestCreateSerializer,
the serializer behind the public submission endpoint. -/
def serviceRequestCreateSerializerFields : List String :=
  ["requester_name", "requester_email", "department", "category", "description"]

/-- permissions.py lines 19-25: IsStaffOnly.has_permission. -/
def IsStaffOnly_has_permission (u : User) : Bool :=
  u.is_authenticated && u.is_staff

/-- permissions.py lines 4-16: IsStaffOrReadOnly.has_permission; the
argument `write` is true exactly when the request method is not a safe
method. -/
def IsStaffOrReadOnly_has_permission (u : User) (write : Bool) : Bool :=
  if write then u.is_authenticated && u.is_staff else u.is_authenticated

/-- The check performed by the login_required decorator on the web views:
authentication only, no staff requirement. -/
def login_required_passes (u : User) : Bool :=
  u.is_authenticated

/-- Error outcomes of the endpoints, following the taxonomy of the spec:
failed permission check, missing record, bad enumeration value, and the
wrapper around unexpected sync failures (for example a violated unique
constraint on Department.code). -/
inductive ApiError where
  | AuthorizationError : ApiError
  | NotFound : ApiError
  | ValidationError : ApiError
  | SyncError : ApiError
deriving DecidableEq

/-- views.py lines 94-115 and api_views.py lines 104-126: the shared core
of the status-update operation.  Look up the record by id (get_object_or_404
/ get_object), validate the new status against STATUS_CHOICES, auto-assign
the acting user when moving to in_progress with no assignee, save, and
return the (old_status, new_status) pair.  Both endpoints run exactly this
logic; they differ only in the permission gate wrapped around it. -/
def update_request_status (st : Store) (rid : Nat) (new_status : String)
    (acting : User) : Except ApiError (String × String) × Store :=
  match st.requests.find? (fun r => r.id == rid) with
  | none => (.error .NotFound, st)
  | some service_request =>
    if statusKeys.contains new_status then
      let old_status := service_request.status
      let sr2 : ServiceRequest :=
        { service_request with
          status := new_status,
          assigned_to :=
            if new_status == "in_progress" && service_request.assigned_to.isNone
            then some acting.id else service_request.assigned_to }
      (.ok (old_status, new_status),
       { st with requests := st.requests.map (fun r => if r.id == rid then sr2 else r) })
    else (.error .ValidationError, st)

/-- views.py lines 90-93: update_request_status is wrapped only in
login_required, so any authenticated caller passes the gate. -/
def view_update_request_status (u : User) (st : Store) (rid : Nat)
    (new_status : String) : Except ApiError (String × String) × Store :=
  if login_required_passes u then update_request_status st rid new_status u
  else (.error .AuthorizationError, st)

/-- api_views.py line 103: the update-status action carries
permission_classes=[IsStaffOnly]. -/
def api_update_status (u : User) (st : Store) (rid : Nat)
    (new_status : String) : Except ApiError (String × String) × Store :=
  if IsStaffOnly_has_permission u then update_request_status st rid new_status u
  else (.error .AuthorizationError, st)

/-- One entity of the external directory feed.  The guard
`'company' in user and 'name' in user['company']` of the source is the
isSome of `company_name`; `name` is the `user.get('name', 'Unknown')`
source field. -/
structure ExternalUser where
  name : Option String
  company_name : Option String
deriving DecidableEq

/-- The manager derived from a feed entity: user.get('name', 'Unknown'). -/
def mgrOf (e : ExternalUser) : String := e.name.getD "Unknown"

/-- views.py line 304 / api_views.py line 222:
dept_name[:10].upper().replace(' ', '') — slice the first ten characters,
upper-case them, remove spaces. -/
def deriveCode (dept_name : String) : String :=
  ⟨((dept_name.data.take 10).map Char.toUpper).filter (fun c => !(c == ' '))⟩

/-- The code derivation in the order the spec words it: uppercase the name,
take the first 10 characters, strip spaces. -/
def specDeriveCode (dept_name : String) : String :=
  ⟨((dept_name.data.map Char.toUpper).take 10).filter (fun c => !(c == ' '))⟩

/-- The outcome of processing one feed entity. -/
inductive StepResult where
  | skipped : StepResult
  | createdDept : Department → StepResult
  | updatedDept : Department → StepResult
  | unchangedDept : StepResult
  | integrityError : StepResult
deriving DecidableEq

/-- views.py lines 301-322 / api_views.py lines 219-240: the body of the
sync loop for one feed entity.  Entities without a company name are
skipped.  get_or_create matches by name; on a miss it inserts a new row
with the derived code and manager, unless the unique constraint on
Department.code (models.py line 49) is violated, which raises and is
caught by the surrounding except.  On a hit, the manager is rewritten
only when it differs. -/
def syncStep (depts : List Department) (nextId : Nat) (e : ExternalUser) :
    StepResult × List Department :=
  match e.company_name with
  | none => (.skipped, depts)
  | some dept_name =>
    let manager := mgrOf e
    match depts.find? (fun d => d.name == dept_name) with
    | some department =>
      if department.manager == manager then (.unchangedDept, depts)
      else
        let d2 : Department := { department with manager := manager }
        (.updatedDept d2, depts.map (fun x => if x.id == department.id then d2 else x))
    | none =>
      let dept_code := deriveCode dept_name
      if depts.any (fun d => d.code == dept_code) then (.integrityError, depts)
      else
        let d : Department := ⟨nextId, dept_name, dept_code, manager⟩
        (.createdDept d, depts ++ [d])

/-- The sync loop over the whole feed, threading the department table, the
next fresh id and the created/updated counters.  An integrity error aborts
the loop: the rows written so far persist and the endpoint answers with an
error response. -/
def syncLoop (users : List ExternalUser) (depts : List Department)
    (nextId created updated : Nat) :
    Except ApiError (Nat × Nat) × List Department :=
  match users with
  | [] => (.ok (created, updated), depts)
  | e :: rest =>
    match syncStep depts nextId e with
    | (.skipped, d) => syncLoop rest d nextId created updated
    | (.createdDept _, d) => syncLoop rest d (nextId + 1) (created + 1) updated
    | (.updatedDept _, d) => syncLoop rest d nextId created (updated + 1)
    | (.unchangedDept, d) => syncLoop rest d nextId created updated
    | (.integrityError, d) => (.error .SyncError, d)

/-- views.py lines 301-322 / api_views.py lines 219-240: the whole sync
operation on a successfully fetched feed (the HTTP fetch itself is the
external collaborator; its decoded JSON array is the `users` argument). -/
def sync_departments (users : List ExternalUser) (st : Store) (nextId : Nat) :
    Except ApiError (Nat × Nat) × Store :=
  let r := syncLoop users st.departments nextId 0 0
  (r.1, { st with departments := r.2 })

/-- views.py lines 288-292: sync_departments_api is wrapped only in
login_required. -/
def view_sync_departments (u : User) (users : List ExternalUser) (st : Store)
    (nextId : Nat) : Except ApiError (Nat × Nat) × Store :=
  if login_required_passes u then sync_departments users st nextId
  else (.error .AuthorizationError, st)

/-- api_views.py line 207: the sync-api action carries
permission_classes=[IsStaffOnly]. -/
def api_sync_departments (u : User) (users : List ExternalUser) (st : Store)
    (nextId : Nat) : Except ApiError (Nat × Nat) × Store :=
  if IsStaffOnly_has_permission u then sync_departments users st nextId
  else (.error .AuthorizationError, st)

/-- The department names carried by the feed, in feed order. -/
def feedNames (users : List ExternalUser) : List String :=
  users.filterMap (fun e => e.company_name)

/-- The department rows a sync run creates from a feed when none of the
names exist yet, with ids assigned sequentially from `nextId`. -/
def createdDepts (users : List ExternalUser) (nextId : Nat) : List Department :=
  match users with
  | [] => []
  | e :: rest =>
    match e.company_name with
    | none => createdDepts rest nextId
    | some nm => ⟨nextId, nm, deriveCode nm, mgrOf e⟩ :: createdDepts rest (nextId + 1)

/-- views.py lines 265-285: the POST branch of department_delete.  Look up
the department by id (get_object_or_404), count requests whose department
field equals its name; when the count is positive, warn and keep the row,
otherwise delete it.  The Bool result is true exactly when the row was
deleted. -/
def department_delete (st : Store) (department_id : Nat) :
    Except ApiError Bool × Store :=
  match st.departments.find? (fun d => d.id == department_id) with
  | none => (.error .NotFound, st)
  | some department =>
    let request_count := (st.requests.filter (fun r => r.department == department.name)).length
    if request_count > 0 then (.ok false, st)
    else
      (.ok true,
       { st with departments := st.departments.filter (fun d => !(d.id == department_id)) })

/-- api_views.py lines 191-199: DepartmentViewSet overrides no destroy
method, so the DELETE route runs the framework-default ModelViewSet
destroy: permission check (IsStaffOrReadOnly, a write), 404 on a missing
id, otherwise an unconditional delete of the row — no referential guard. -/
def api_department_destroy (u : User) (st : Store) (department_id : Nat) :
    Except ApiError Unit × Store :=
  if IsStaffOrReadOnly_has_permission u true then
    match st.departments.find? (fun d => d.id == department_id) with
    | none => (.error .NotFound, st)
    | some _ =>
      (.ok (),
       { st with departments := st.departments.filter (fun d => !(d.id == department_id)) })
  else (.error .AuthorizationError, st)

/-- The number of requests in a table whose status equals `s`. -/
def countStatus (l : List ServiceRequest) (s : String) : Nat :=
  (l.filter (fun r => r.status == s)).length

/-- api_views.py lines 137-140 (and the same four counts in views.py lines
136-139): total, pending, in_progress and resolved counts. -/
def request_stats (st : Store) : Nat × Nat × Nat × Nat :=
  (st.requests.length,
   countStatus st.requests "pending",
   countStatus st.requests "in_progress",
   countStatus st.requests "resolved")

/-- The number of requests in a table whose category equals `c`. -/
def countCategory (l : List ServiceRequest) (c : String) : Nat :=
  (l.filter (fun r => r.category == c)).length

/-- api_views.py lines 142-146: the category distribution of the stats
endpoint, keyed by display label, reporting the actual counts. -/
def api_category_distribution (st : Store) : List (String × Nat) :=
  CATEGORY_CHOICES.map (fun p => (p.2, countCategory st.requests p.1))

/-- views.py lines 141-150: the dashboard category statistics: for each
category the actual count is halved with integer division, floored at 1
when any request exists, and reported as 0 otherwise. -/
def dashboard_category_stats (st : Store) : List (String × Nat) :=
  CATEGORY_CHOICES.map (fun p =>
    let actual := countCategory st.requests p.1
    (p.2, if actual > 0 then max 1 (actual / 2) else 0))

/-! ## Helper lemmas -/

/-- The two orders of slicing and upper-casing agree, because upper-casing
maps the characters one by one. -/
theorem deriveCode_eq_specDeriveCode (nm : String) :
    deriveCode nm = specDeriveCode nm := by
  unfold deriveCode specDeriveCode
  rw [List.map_take]

/-- Saving an updated row: after mapping the replacement over the table,
looking the id up again returns the replacement, provided the id was
present and the replacement keeps it. -/
theorem find?_replace_requests (l : List ServiceRequest) (rid : Nat)
    (sr2 : ServiceRequest) (hl : (l.find? (fun x => x.id == rid)).isSome)
    (h2 : (sr2.id == rid) = true) :
    (l.map (fun x => if x.id == rid then sr2 else x)).find? (fun x => x.id == rid)
      = some sr2 := by
  induction l with
  | nil => simp [List.find?] at hl
  | cons a t ih =>
    simp only [List.map]
    by_cases ha : (a.id == rid) = true
    · rw [if_pos ha, @List.find?_cons_of_pos ServiceRequest (fun x => x.id == rid) sr2 _ h2]
    · rw [if_neg ha, @List.find?_cons_of_neg ServiceRequest (fun x => x.id == rid) a _ ha]
      rw [@List.find?_cons_of_neg ServiceRequest (fun x => x.id == rid) a _ ha] at hl
      exact ih hl

/-- Counting one status over a cons cell. -/
theorem countStatus_cons (r : ServiceRequest) (t : List ServiceRequest) (s : String) :
    countStatus (r :: t) s = (if r.status == s then 1 else 0) + countStatus t s := by
  simp only [countStatus, List.filter_cons]
  split <;> simp [Nat.add_comm]

/-- Each row whose status lies in the four-value enumeration is counted by
exactly one of the four per-status counters. -/
theorem statusCounts_sum (l : List ServiceRequest)
    (h : ∀ r ∈ l, r.status = "pending" ∨ r.status = "in_progress" ∨
         r.status = "resolved" ∨ r.status = "closed") :
    countStatus l "pending" + countStatus l "in_progress" +
      countStatus l "resolved" + countStatus l "closed" = l.length := by
  induction l with
  | nil => simp [countStatus]
  | cons r t ih =>
    have ht := ih (fun x hx => h x (List.mem_cons_of_mem _ hx))
    have hr := h r (List.mem_cons_self _ _)
    rcases hr with h1 | h1 | h1 | h1 <;>
      simp [countStatus_cons, h1] <;> omega

/-! ## Claims -/

/-- C7: for every store whose request statuses lie in the enumeration, the
counts returned by request_stats satisfy
pending + in_progress + resolved + closed = total. -/
theorem c7_stats_sum (st : Store)
    (h : ∀ r ∈ st.requests, r.status = "pending" ∨ r.status = "in_progress" ∨
         r.status = "resolved" ∨ r.status = "closed") :
    (request_stats st).2.1 + (request_stats st).2.2.1 + (request_stats st).2.2.2 +
      countStatus st.requests "closed" = (request_stats st).1 :=
  statusCounts_sum st.requests h

/-- Witness for C7 at a store holding one record of each status. -/
theorem c7_stats_sum_witness :
    (request_stats ⟨[⟨1, "a", "IT", "other", "d", "pending", none⟩,
                     ⟨2, "b", "IT", "other", "d", "in_progress", none⟩,
                     ⟨3, "c", "IT", "other", "d", "resolved", none⟩,
                     ⟨4, "e", "IT", "other", "d", "closed", none⟩], []⟩).2.1 +
    (request_stats ⟨[⟨1, "a", "IT", "other", "d", "pending", none⟩,
                     ⟨2, "b", "IT", "other", "d", "in_progress", none⟩,
                     ⟨3, "c", "IT", "other", "d", "resolved", none⟩,
                     ⟨4, "e", "IT", "other", "d", "closed", none⟩], []⟩).2.2.1 +
    (request_stats ⟨[⟨1, "a", "IT", "other", "d", "pending", none⟩,
                     ⟨2, "b", "IT", "other", "d", "in_progress", none⟩,
                     ⟨3, "c", "IT", "other", "d", "resolved", none⟩,
                     ⟨4, "e", "IT", "other", "d", "closed", none⟩], []⟩).2.2.2 +
    countStatus [⟨1, "a", "IT", "other", "d", "pending", none⟩,
                 ⟨2, "b", "IT", "other", "d", "in_progress", none⟩,
                 ⟨3, "c", "IT", "other", "d", "resolved", none⟩,
                 ⟨4, "e", "IT", "other", "d", "closed", none⟩] "closed" =
    (request_stats ⟨[⟨1, "a", "IT", "other", "d", "pending", none⟩,
                     ⟨2, "b", "IT", "other", "d", "in_progress", none⟩,
                     ⟨3, "c", "IT", "other", "d", "resolved", none⟩,
                     ⟨4, "e", "IT", "other", "d", "closed", none⟩], []⟩).1 :=
  c7_stats_sum _ (by decide)

/-- C9: the public create serializer declares a requester_email field, but
the ServiceRequest model declares no such column — the code contradicts
itself, and no record can store an email. -/
theorem c9_email_field_missing :
    "requester_email" ∈ serviceRequestCreateSerializerFields ∧
    "requester_email" ∉ serviceRequestModelFields := by decide

/-- C10: for every category of the enumeration, the API stats endpoint
reports the actual count while the admin dashboard reports
max 1 (count / 2) when the count is positive and 0 when it is zero. -/
theorem c10_dashboard_halves (st : Store) (c lbl : String)
    (h : (c, lbl) ∈ CATEGORY_CHOICES) :
    (lbl, countCategory st.requests c) ∈ api_category_distribution st ∧
    (lbl, if 0 < countCategory st.requests c
          then max 1 (countCategory st.requests c / 2) else 0)
      ∈ dashboard_category_stats st := by
  constructor
  · have h2 := List.mem_map_of_mem
      (fun p : String × String => (p.2, countCategory st.requests p.1)) h
    simpa [api_category_distribution] using h2
  · have h2 := List.mem_map_of_mem
      (fun p : String × String =>
        let actual := countCategory st.requests p.1
        (p.2, if actual > 0 then max 1 (actual / 2) else 0)) h
    simpa [dashboard_category_stats] using h2

/-- Witness for C10 at a store with five requests in category other. -/
theorem c10_dashboard_halves_witness :
    ("Other", countCategory [⟨1, "a", "IT", "other", "d", "pending", none⟩,
                             ⟨2, "b", "IT", "other", "d", "pending", none⟩,
                             ⟨3, "c", "IT", "other", "d", "pending", none⟩,
                             ⟨4, "e", "IT", "other", "d", "pending", none⟩,
                             ⟨5, "f", "IT", "other", "d", "pending", none⟩] "other")
      ∈ api_category_distribution ⟨[⟨1, "a", "IT", "other", "d", "pending", none⟩,
                                    ⟨2, "b", "IT", "other", "d", "pending", none⟩,
                                    ⟨3, "c", "IT", "other", "d", "pending", none⟩,
                                    ⟨4, "e", "IT", "other", "d", "pending", none⟩,
                                    ⟨5, "f", "IT", "other", "d", "pending", none⟩], []⟩ ∧
    ("Other", if 0 < countCategory [⟨1, "a", "IT", "other", "d", "pending", none⟩,
                                    ⟨2, "b", "IT", "other", "d", "pending", none⟩,
                                    ⟨3, "c", "IT", "other", "d", "pending", none⟩,
                                    ⟨4, "e", "IT", "other", "d", "pending", none⟩,
                                    ⟨5, "f", "IT", "other", "d", "pending", none⟩] "other"
              then max 1 (countCategory [⟨1, "a", "IT", "other", "d", "pending", none⟩,
                                         ⟨2, "b", "IT", "other", "d", "pending", none⟩,
                                         ⟨3, "c", "IT", "other", "d", "pending", none⟩,
                                         ⟨4, "e", "IT", "other", "d", "pending", none⟩,
                                         ⟨5, "f", "IT", "other", "d", "pending", none⟩] "other" / 2)
              else 0)
      ∈ dashboard_category_stats ⟨[⟨1, "a", "IT", "other", "d", "pending", none⟩,
                                   ⟨2, "b", "IT", "other", "d", "pending", none⟩,
                                   ⟨3, "c", "IT", "other", "d", "pending", none⟩,
                                   ⟨4, "e", "IT", "other", "d", "pending", none⟩,
                                   ⟨5, "f", "IT", "other", "d", "pending", none⟩], []⟩ :=
  c10_dashboard_halves _ "other" "Other" (by decide)

/-- Closed form of a successful status update: the record was found and
the new status is a member of the enumeration. -/
theorem update_request_status_found (st : Store) (rid : Nat) (ns : String)
    (u : User) (r : ServiceRequest)
    (hfind : st.requests.find? (fun x => x.id == rid) = some r)
    (hv : statusKeys.contains ns = true) :
    update_request_status st rid ns u =
      (.ok (r.status, ns),
       { st with requests := st.requests.map (fun x => if x.id == rid then
           { r with
             status := ns,
             assigned_to := if ns == "in_progress" && r.assigned_to.isNone
                            then some u.id else r.assigned_to } else x) }) := by
  simp only [update_request_status, hfind, hv, if_true]

/-- Closed form of a status update on a missing id. -/
theorem update_request_status_notfound (st : Store) (rid : Nat) (ns : String)
    (u : User) (hfind : st.requests.find? (fun x => x.id == rid) = none) :
    update_request_status st rid ns u = (.error .NotFound, st) := by
  simp only [update_request_status, hfind]

/-- Closed form of a status update with a value outside the enumeration. -/
theorem update_request_status_invalid (st : Store) (rid : Nat) (ns : String)
    (u : User) (r : ServiceRequest)
    (hfind : st.requests.find? (fun x => x.id == rid) = some r)
    (hv : statusKeys.contains ns = false) :
    update_request_status st rid ns u = (.error .ValidationError, st) := by
  simp only [update_request_status, hfind, hv, Bool.false_eq_true, if_false]

/-- C2: when the new status is in_progress and the record was unassigned,
the update assigns the acting user; when the record already carried an
assignee, any successful update leaves the assignee unchanged. -/
theorem c2_auto_assign (st : Store) (rid : Nat) (ns : String) (u : User)
    (r : ServiceRequest)
    (hfind : st.requests.find? (fun x => x.id == rid) = some r) :
    (ns = "in_progress" → r.assigned_to = none →
      (update_request_status st rid ns u).1 = .ok (r.status, ns) ∧
      (update_request_status st rid ns u).2.requests.find? (fun x => x.id == rid)
        = some { r with status := ns, assigned_to := some u.id }) ∧
    (∀ a, r.assigned_to = some a → ∀ p,
      (update_request_status st rid ns u).1 = .ok p →
      (update_request_status st rid ns u).2.requests.find? (fun x => x.id == rid)
        = some { r with status := ns, assigned_to := some a }) := by
  have hrid := List.find?_some hfind
  constructor
  · rintro rfl ha
    rw [update_request_status_found st rid "in_progress" u r hfind (by decide)]
    have hsr : ({ r with
        status := "in_progress",
        assigned_to := if "in_progress" == "in_progress" && r.assigned_to.isNone
                       then some u.id else r.assigned_to } : ServiceRequest)
        = { r with status := "in_progress", assigned_to := some u.id } := by
      rw [ha]; rfl
    rw [hsr]
    exact ⟨rfl, find?_replace_requests _ _ _ (by rw [hfind]; rfl) hrid⟩
  · intro a ha p hok
    by_cases hv : statusKeys.contains ns = true
    · rw [update_request_status_found st rid ns u r hfind hv]
      have hcond : (ns == "in_progress" && r.assigned_to.isNone) = false := by
        rw [ha]; simp
      have hsr : ({ r with
          status := ns,
          assigned_to := if ns == "in_progress" && r.assigned_to.isNone
                         then some u.id else r.assigned_to } : ServiceRequest)
          = { r with status := ns, assigned_to := some a } := by
        rw [hcond, ha]; rfl
      rw [hsr]
      exact find?_replace_requests _ _ _ (by rw [hfind]; rfl) hrid
    · have hv' : statusKeys.contains ns = false := by simpa using hv
      rw [update_request_status_invalid st rid ns u r hfind hv'] at hok
      exact Except.noConfusion hok

/-- Witness for C2: an unassigned pending record moved to in_progress gets
the acting user as assignee, and a record already assigned to user 3 keeps
that assignee when resolved. -/
theorem c2_auto_assign_witness :
    ((update_request_status ⟨[⟨1, "Alice", "IT", "other", "d", "pending", none⟩], []⟩
        1 "in_progress" ⟨7, true, true⟩).1 = .ok ("pending", "in_progress") ∧
     (update_request_status ⟨[⟨1, "Alice", "IT", "other", "d", "pending", none⟩], []⟩
        1 "in_progress" ⟨7, true, true⟩).2.requests.find? (fun x => x.id == 1)
       = some ⟨1, "Alice", "IT", "other", "d", "in_progress", some 7⟩) ∧
    (update_request_status ⟨[⟨1, "Alice", "IT", "other", "d", "pending", some 3⟩], []⟩
        1 "resolved" ⟨7, true, true⟩).2.requests.find? (fun x => x.id == 1)
      = some ⟨1, "Alice", "IT", "other", "d", "resolved", some 3⟩ :=
  ⟨(c2_auto_assign ⟨[⟨1, "Alice", "IT", "other", "d", "pending", none⟩], []⟩
      1 "in_progress" ⟨7, true, true⟩ _ rfl).1 rfl rfl,
   (c2_auto_assign ⟨[⟨1, "Alice", "IT", "other", "d", "pending", some 3⟩], []⟩
      1 "resolved" ⟨7, true, true⟩ _ rfl).2 3 rfl ("pending", "resolved") rfl⟩

/-- C3 counterexample: a record already in_progress and unassigned is
re-saved with new status in_progress, and the code assigns the acting
user — the assignee does change, refuting the claim that the rule fires
only on the transition into in_progress. -/
theorem c3_counterexample :
    update_request_status ⟨[⟨1, "Alice", "IT", "other", "d", "in_progress", none⟩], []⟩
        1 "in_progress" ⟨7, true, true⟩
      = (.ok ("in_progress", "in_progress"),
         ⟨[⟨1, "Alice", "IT", "other", "d", "in_progress", some 7⟩], []⟩) ∧
    some 7 ≠ (none : Option Nat) :=
  ⟨rfl, by decide⟩

/-- C3 amended: the auto-assignment rule checks only the new status and
the absence of an assignee, so it also fires on a re-save of a record that
is already in_progress; an existing assignment is still never overwritten. -/
theorem c3_refires_on_resave (st : Store) (rid : Nat) (u : User)
    (r : ServiceRequest)
    (hfind : st.requests.find? (fun x => x.id == rid) = some r)
    (hstat : r.status = "in_progress") (ha : r.assigned_to = none) :
    (update_request_status st rid "in_progress" u).1
      = .ok ("in_progress", "in_progress") ∧
    (update_request_status st rid "in_progress" u).2.requests.find?
        (fun x => x.id == rid)
      = some { r with status := "in_progress", assigned_to := some u.id } := by
  have hrid := List.find?_some hfind
  rw [update_request_status_found st rid "in_progress" u r hfind (by decide)]
  have hsr : ({ r with
      status := "in_progress",
      assigned_to := if "in_progress" == "in_progress" && r.assigned_to.isNone
                     then some u.id else r.assigned_to } : ServiceRequest)
      = { r with status := "in_progress", assigned_to := some u.id } := by
    rw [ha]; rfl
  rw [hsr, hstat]
  exact ⟨rfl, find?_replace_requests _ _ _ (by rw [hfind]; rfl) hrid⟩

/-- Witness for C3 amended at a store whose single record is already
in_progress and unassigned. -/
theorem c3_refires_on_resave_witness :
    (update_request_status ⟨[⟨1, "Bob", "HR", "other", "d", "in_progress", none⟩], []⟩
        1 "in_progress" ⟨9, true, true⟩).1 = .ok ("in_progress", "in_progress") ∧
    (update_request_status ⟨[⟨1, "Bob", "HR", "other", "d", "in_progress", none⟩], []⟩
        1 "in_progress" ⟨9, true, true⟩).2.requests.find? (fun x => x.id == 1)
      = some ⟨1, "Bob", "HR", "other", "d", "in_progress", some 9⟩ :=
  c3_refires_on_resave ⟨[⟨1, "Bob", "HR", "other", "d", "in_progress", none⟩], []⟩
    1 ⟨9, true, true⟩ _ rfl rfl rfl

/-- C8: a missing id answers NotFound with the store untouched; a status
outside the enumeration answers ValidationError with the store untouched;
a successful update returns exactly the status of the record before the
call paired with its status after the call. -/
theorem c8_status_update_contract (st : Store) (rid : Nat) (ns : String)
    (u : User) :
    (st.requests.find? (fun x => x.id == rid) = none →
       update_request_status st rid ns u = (.error .NotFound, st)) ∧
    (∀ r, st.requests.find? (fun x => x.id == rid) = some r →
       statusKeys.contains ns = false →
       update_request_status st rid ns u = (.error .ValidationError, st)) ∧
    (∀ p, (update_request_status st rid ns u).1 = .ok p →
       ∃ r r2, st.requests.find? (fun x => x.id == rid) = some r ∧
         (update_request_status st rid ns u).2.requests.find? (fun x => x.id == rid)
           = some r2 ∧
         p.1 = r.status ∧ p.2 = r2.status ∧ r2.status = ns) := by
  refine ⟨fun hf => update_request_status_notfound st rid ns u hf,
          fun r hf hv => update_request_status_invalid st rid ns u r hf hv,
          fun p hok => ?_⟩
  cases hf : st.requests.find? (fun x => x.id == rid) with
  | none =>
    rw [update_request_status_notfound st rid ns u hf] at hok
    exact Except.noConfusion hok
  | some r =>
    have hrid := List.find?_some hf
    by_cases hv : statusKeys.contains ns = true
    · rw [update_request_status_found st rid ns u r hf hv] at hok ⊢
      have hp : p = (r.status, ns) := by
        injection hok with h
        exact h.symm
      subst hp
      refine ⟨r, { r with
        status := ns,
        assigned_to := if ns == "in_progress" && r.assigned_to.isNone
                       then some u.id else r.assigned_to }, rfl, ?_, rfl, rfl, rfl⟩
      exact find?_replace_requests _ _ _ (by rw [hf]; rfl) hrid
    · have hv' : statusKeys.contains ns = false := by simpa using hv
      rw [update_request_status_invalid st rid ns u r hf hv'] at hok
      exact Except.noConfusion hok

/-- Witness for C8: the NotFound case on an empty store and the
ValidationError case on a bogus status value. -/
theorem c8_status_update_contract_witness :
    update_request_status ⟨[], []⟩ 1 "resolved" ⟨7, true, true⟩
      = (.error .NotFound, ⟨[], []⟩) ∧
    update_request_status ⟨[⟨1, "Alice", "IT", "other", "d", "pending", none⟩], []⟩
        1 "bogus" ⟨7, true, true⟩
      = (.error .ValidationError,
         ⟨[⟨1, "Alice", "IT", "other", "d", "pending", none⟩], []⟩) :=
  ⟨(c8_status_update_contract ⟨[], []⟩ 1 "resolved" ⟨7, true, true⟩).1 rfl,
   (c8_status_update_contract ⟨[⟨1, "Alice", "IT", "other", "d", "pending", none⟩], []⟩
      1 "bogus" ⟨7, true, true⟩).2.1 _ rfl (by decide)⟩


/-- C1 counterexample: an authenticated caller without staff privilege
passes the login_required gate of the web status-update view and mutates
the store, refuting the claim that every mutating operation refuses
non-staff callers. -/
theorem c1_counterexample :
    IsStaffOnly_has_permission ⟨5, true, false⟩ = false ∧
    view_update_request_status ⟨5, true, false⟩
        ⟨[⟨1, "Alice", "IT", "other", "d", "pending", none⟩], []⟩ 1 "resolved"
      = (.ok ("pending", "resolved"),
         ⟨[⟨1, "Alice", "IT", "other", "d", "resolved", none⟩], []⟩) ∧
    (⟨[⟨1, "Alice", "IT", "other", "d", "resolved", none⟩], []⟩ : Store)
      ≠ ⟨[⟨1, "Alice", "IT", "other", "d", "pending", none⟩], []⟩ :=
  ⟨rfl, rfl, by decide⟩

/-- C1 amended: the API variants of update_status and sync_departments,
gated by IsStaffOnly, refuse every caller that is not an authenticated
staff identity with an AuthorizationError and leave the store unchanged;
the corresponding web views are gated only by login_required and refuse
only unauthenticated callers. -/
theorem c1_staff_gating (u : User) (st : Store) (rid : Nat) (ns : String)
    (feed : List ExternalUser) (nid : Nat) :
    (IsStaffOnly_has_permission u = false →
      api_update_status u st rid ns = (.error .AuthorizationError, st) ∧
      api_sync_departments u feed st nid = (.error .AuthorizationError, st)) ∧
    (u.is_authenticated = false →
      view_update_request_status u st rid ns = (.error .AuthorizationError, st) ∧
      view_sync_departments u feed st nid = (.error .AuthorizationError, st)) := by
  constructor
  · intro h
    constructor <;> simp [api_update_status, api_sync_departments, h]
  · intro h
    constructor <;>
      simp [view_update_request_status, view_sync_departments, login_required_passes, h]

/-- Witness for C1 amended: an authenticated non-staff caller on the API
endpoints and an unauthenticated caller on the web views. -/
theorem c1_staff_gating_witness :
    (api_update_status ⟨3, true, false⟩ ⟨[], []⟩ 1 "resolved"
       = (.error .AuthorizationError, ⟨[], []⟩) ∧
     api_sync_departments ⟨3, true, false⟩ [] ⟨[], []⟩ 0
       = (.error .AuthorizationError, ⟨[], []⟩)) ∧
    (view_update_request_status ⟨4, false, false⟩ ⟨[], []⟩ 1 "resolved"
       = (.error .AuthorizationError, ⟨[], []⟩) ∧
     view_sync_departments ⟨4, false, false⟩ [] ⟨[], []⟩ 0
       = (.error .AuthorizationError, ⟨[], []⟩)) :=
  ⟨(c1_staff_gating ⟨3, true, false⟩ ⟨[], []⟩ 1 "resolved" [] 0).1 rfl,
   (c1_staff_gating ⟨4, false, false⟩ ⟨[], []⟩ 1 "resolved" [] 0).2 rfl⟩

/-- C4 counterexample: a department referenced by one request is deleted
anyway through the API destroy route, which carries no referential guard,
refuting the claim for every department delete operation. -/
theorem c4_counterexample :
    ((⟨[⟨1, "Alice", "IT", "other", "d", "pending", none⟩],
       [⟨1, "IT", "IT", "Bob"⟩]⟩ : Store).requests.filter
        (fun r => r.department == "IT")).length = 1 ∧
    api_department_destroy ⟨2, true, true⟩
        ⟨[⟨1, "Alice", "IT", "other", "d", "pending", none⟩], [⟨1, "IT", "IT", "Bob"⟩]⟩ 1
      = (.ok (), ⟨[⟨1, "Alice", "IT", "other", "d", "pending", none⟩], []⟩) :=
  ⟨rfl, rfl⟩

/-- C4 amended: the web department_delete view enforces the referential
guard — it rejects the deletion and preserves the store whenever at least
one request references the department name, and deletes the row when none
does — while the API destroy route deletes the row unconditionally for a
staff caller. -/
theorem c4_delete_guard (st : Store) (did : Nat) (d : Department)
    (hfind : st.departments.find? (fun x => x.id == did) = some d) :
    ((st.requests.filter (fun r => r.department == d.name)).length > 0 →
       department_delete st did = (.ok false, st)) ∧
    ((st.requests.filter (fun r => r.department == d.name)).length = 0 →
       department_delete st did =
         (.ok true,
          { st with departments := st.departments.filter (fun x => !(x.id == did)) }) ∧
       (st.departments.filter (fun x => !(x.id == did))).find?
           (fun x => x.id == did) = none) ∧
    (∀ u : User, IsStaffOrReadOnly_has_permission u true = true →
       api_department_destroy u st did =
         (.ok (),
          { st with departments := st.departments.filter (fun x => !(x.id == did)) })) := by
  refine ⟨fun hc => ?_, fun hc => ⟨?_, ?_⟩, fun u hu => ?_⟩
  · simp only [department_delete, hfind]
    rw [if_pos hc]
  · simp only [department_delete, hfind]
    rw [if_neg (by omega)]
  · apply List.find?_eq_none.mpr
    intro x hx
    have hmem := List.of_mem_filter hx
    simpa using hmem
  · simp only [api_department_destroy, hu, if_true, hfind]

/-- Witness for C4 amended: the guard rejects while a request references
the name IT, the delete succeeds on a store without such requests, and
the API destroy removes the row even while referenced. -/
theorem c4_delete_guard_witness :
    department_delete
        ⟨[⟨1, "Alice", "IT", "other", "d", "pending", none⟩], [⟨1, "IT", "IT", "Bob"⟩]⟩ 1
      = (.ok false,
         ⟨[⟨1, "Alice", "IT", "other", "d", "pending", none⟩], [⟨1, "IT", "IT", "Bob"⟩]⟩) ∧
    department_delete ⟨[], [⟨1, "IT", "IT", "Bob"⟩]⟩ 1 = (.ok true, ⟨[], []⟩) ∧
    api_department_destroy ⟨9, true, true⟩
        ⟨[⟨1, "Alice", "IT", "other", "d", "pending", none⟩], [⟨1, "IT", "IT", "Bob"⟩]⟩ 1
      = (.ok (), ⟨[⟨1, "Alice", "IT", "other", "d", "pending", none⟩], []⟩) :=
  ⟨(c4_delete_guard
      ⟨[⟨1, "Alice", "IT", "other", "d", "pending", none⟩], [⟨1, "IT", "IT", "Bob"⟩]⟩
      1 ⟨1, "IT", "IT", "Bob"⟩ rfl).1 (by decide),
   ((c4_delete_guard ⟨[], [⟨1, "IT", "IT", "Bob"⟩]⟩ 1 ⟨1, "IT", "IT", "Bob"⟩ rfl).2.1 rfl).1,
   (c4_delete_guard
      ⟨[⟨1, "Alice", "IT", "other", "d", "pending", none⟩], [⟨1, "IT", "IT", "Bob"⟩]⟩
      1 ⟨1, "IT", "IT", "Bob"⟩ rfl).2.2 ⟨9, true, true⟩ rfl⟩

/-- A feed entity without a company name is skipped. -/
theorem syncStep_skip (depts : List Department) (nid : Nat) (e : ExternalUser)
    (h : e.company_name = none) : syncStep depts nid e = (.skipped, depts) := by
  simp [syncStep, h]

/-- Closed form of the create branch of the sync step. -/
theorem syncStep_create (depts : List Department) (nid : Nat) (e : ExternalUser)
    (nm : String) (h : e.company_name = some nm)
    (hf : depts.find? (fun d => d.name == nm) = none)
    (hcode : depts.any (fun d => d.code == deriveCode nm) = false) :
    syncStep depts nid e = (.createdDept ⟨nid, nm, deriveCode nm, mgrOf e⟩,
                            depts ++ [⟨nid, nm, deriveCode nm, mgrOf e⟩]) := by
  simp [syncStep, h, hf, hcode]

/-- Closed form of the unique-code violation branch of the sync step. -/
theorem syncStep_integrity (depts : List Department) (nid : Nat)
    (e : ExternalUser) (nm : String) (h : e.company_name = some nm)
    (hf : depts.find? (fun d => d.name == nm) = none)
    (hcode : depts.any (fun d => d.code == deriveCode nm) = true) :
    syncStep depts nid e = (.integrityError, depts) := by
  simp [syncStep, h, hf, hcode]

/-- Closed form of the no-op branch: the name exists with the same manager. -/
theorem syncStep_unchanged (depts : List Department) (nid : Nat)
    (e : ExternalUser) (nm : String) (d : Department)
    (h : e.company_name = some nm)
    (hf : depts.find? (fun x => x.name == nm) = some d)
    (hm : d.manager = mgrOf e) :
    syncStep depts nid e = (.unchangedDept, depts) := by
  simp [syncStep, h, hf, hm]

/-- Closed form of the manager-update branch: the name exists with a
different manager. -/
theorem syncStep_update (depts : List Department) (nid : Nat)
    (e : ExternalUser) (nm : String) (d : Department)
    (h : e.company_name = some nm)
    (hf : depts.find? (fun x => x.name == nm) = some d)
    (hm : d.manager ≠ mgrOf e) :
    syncStep depts nid e =
      (.updatedDept { d with manager := mgrOf e },
       depts.map (fun x => if x.id == d.id then { d with manager := mgrOf e } else x)) := by
  have hm2 : (d.manager == mgrOf e) = false := by simpa using hm
  simp [syncStep, h, hf, hm2]

/-- A name carried by a feed entity is one of the feed names. -/
theorem mem_feedNames {users : List ExternalUser} {e : ExternalUser}
    {nm : String} (he : e ∈ users) (hc : e.company_name = some nm) :
    nm ∈ feedNames users :=
  List.mem_filterMap.mpr ⟨e, he, hc⟩

/-- First-run behaviour of the sync loop: when the feed names are fresh
for the current table and pairwise distinct, and their derived codes are
fresh and pairwise distinct, every entity carrying a name creates one
department, in feed order with sequential ids, and the counters advance
by one create per name and no update. -/
theorem syncLoop_fresh (users : List ExternalUser) :
    ∀ (depts : List Department) (nid c u : Nat),
    (feedNames users).Nodup →
    ((feedNames users).map deriveCode).Nodup →
    (∀ nm ∈ feedNames users, ∀ d ∈ depts, d.name ≠ nm) →
    (∀ nm ∈ feedNames users, ∀ d ∈ depts, d.code ≠ deriveCode nm) →
    syncLoop users depts nid c u =
      (.ok (c + (feedNames users).length, u), depts ++ createdDepts users nid) := by
  induction users with
  | nil =>
    intro depts nid c u _ _ _ _
    simp [syncLoop, createdDepts, feedNames]
  | cons e rest ih =>
    intro depts nid c u hn hc hdn hdc
    cases he : e.company_name with
    | none =>
      have hfeed : feedNames (e :: rest) = feedNames rest := by
        simp [feedNames, List.filterMap_cons, he]
      rw [hfeed] at hn hc hdn hdc
      have hcd : createdDepts (e :: rest) nid = createdDepts rest nid := by
        simp [createdDepts, he]
      have hloop : syncLoop (e :: rest) depts nid c u = syncLoop rest depts nid c u := by
        simp [syncLoop, syncStep_skip depts nid e he]
      rw [hloop, ih depts nid c u hn hc hdn hdc, hcd, hfeed]
    | some nm =>
      have hfeed : feedNames (e :: rest) = nm :: feedNames rest := by
        simp [feedNames, List.filterMap_cons, he]
      have hmem0 : nm ∈ feedNames (e :: rest) := by
        rw [hfeed]; exact List.mem_cons_self _ _
      have hf : depts.find? (fun d => d.name == nm) = none := by
        apply List.find?_eq_none.mpr
        intro d hd
        simpa using hdn nm hmem0 d hd
      have hcode : depts.any (fun d => d.code == deriveCode nm) = false := by
        apply Bool.eq_false_iff.mpr
        intro hany
        obtain ⟨d, hd, hbd⟩ := List.any_eq_true.mp hany
        exact hdc nm hmem0 d hd (by simpa using hbd)
      have hloop : syncLoop (e :: rest) depts nid c u =
          syncLoop rest (depts ++ [⟨nid, nm, deriveCode nm, mgrOf e⟩])
            (nid + 1) (c + 1) u := by
        simp [syncLoop, syncStep_create depts nid e nm he hf hcode]
      rw [hfeed] at hn hc
      rw [List.map_cons] at hc
      have hnodups := List.nodup_cons.mp hn
      have hcodedups := List.nodup_cons.mp hc
      have hdn2 : ∀ nm2 ∈ feedNames rest,
          ∀ d ∈ depts ++ [(⟨nid, nm, deriveCode nm, mgrOf e⟩ : Department)],
          d.name ≠ nm2 := by
        intro nm2 hnm2 d hd
        rcases List.mem_append.mp hd with hd | hd
        · exact hdn nm2 (by rw [hfeed]; exact List.mem_cons_of_mem _ hnm2) d hd
        · have hde : d = ⟨nid, nm, deriveCode nm, mgrOf e⟩ := by simpa using hd
          subst hde
          intro hEq
          have hEq2 : nm = nm2 := hEq
          exact hnodups.1 (hEq2 ▸ hnm2)
      have hdc2 : ∀ nm2 ∈ feedNames rest,
          ∀ d ∈ depts ++ [(⟨nid, nm, deriveCode nm, mgrOf e⟩ : Department)],
          d.code ≠ deriveCode nm2 := by
        intro nm2 hnm2 d hd
        rcases List.mem_append.mp hd with hd | hd
        · exact hdc nm2 (by rw [hfeed]; exact List.mem_cons_of_mem _ hnm2) d hd
        · have hde : d = ⟨nid, nm, deriveCode nm, mgrOf e⟩ := by simpa using hd
          subst hde
          intro hEq
          have hEq2 : deriveCode nm = deriveCode nm2 := hEq
          exact hcodedups.1 (hEq2 ▸ List.mem_map_of_mem deriveCode hnm2)
      have hIH := ih (depts ++ [(⟨nid, nm, deriveCode nm, mgrOf e⟩ : Department)])
        (nid + 1) (c + 1) u hnodups.2 hcodedups.2 hdn2 hdc2
      rw [hloop, hIH]
      have hcd : createdDepts (e :: rest) nid =
          ⟨nid, nm, deriveCode nm, mgrOf e⟩ :: createdDepts rest (nid + 1) := by
        simp [createdDepts, he]
      rw [hfeed, hcd]
      have hlen : c + 1 + (feedNames rest).length
          = c + (nm :: feedNames rest).length := by
        simp [List.length_cons]; omega
      rw [hlen, List.append_assoc, List.singleton_append]

/-- Second-run behaviour of the sync loop: when every entity carrying a
name already has a department row with that name whose manager matches
the entity, the loop changes nothing and counts nothing. -/
theorem syncLoop_stable (users : List ExternalUser) :
    ∀ (depts : List Department) (nid c u : Nat),
    (∀ e ∈ users, ∀ nm, e.company_name = some nm →
       ∃ d, depts.find? (fun x => x.name == nm) = some d ∧ d.manager = mgrOf e) →
    syncLoop users depts nid c u = (.ok (c, u), depts) := by
  induction users with
  | nil => intro depts nid c u _; simp [syncLoop]
  | cons e rest ih =>
    intro depts nid c u h
    cases he : e.company_name with
    | none =>
      have hloop : syncLoop (e :: rest) depts nid c u = syncLoop rest depts nid c u := by
        simp [syncLoop, syncStep_skip depts nid e he]
      rw [hloop]
      exact ih depts nid c u (fun e2 he2 nm hnm => h e2 (List.mem_cons_of_mem _ he2) nm hnm)
    | some nm =>
      obtain ⟨d, hfd, hm⟩ := h e (List.mem_cons_self _ _) nm he
      have hloop : syncLoop (e :: rest) depts nid c u = syncLoop rest depts nid c u := by
        simp [syncLoop, syncStep_unchanged depts nid e nm d he hfd hm]
      rw [hloop]
      exact ih depts nid c u (fun e2 he2 nm2 hnm2 => h e2 (List.mem_cons_of_mem _ he2) nm2 hnm2)

/-- After a fresh sync of a feed with pairwise-distinct names, every
entity carrying a name finds its own department row, whose manager is the
manager derived from that entity. -/
theorem createdDepts_find (users : List ExternalUser) :
    ∀ (nid : Nat), (feedNames users).Nodup →
    ∀ e ∈ users, ∀ nm, e.company_name = some nm →
    ∃ d, (createdDepts users nid).find? (fun x => x.name == nm) = some d ∧
         d.manager = mgrOf e := by
  induction users with
  | nil =>
    intro nid _ e he
    simp at he
  | cons e0 rest ih =>
    intro nid hn e he nm hnm
    cases he0 : e0.company_name with
    | none =>
      have hcd : createdDepts (e0 :: rest) nid = createdDepts rest nid := by
        simp [createdDepts, he0]
      have hfeed : feedNames (e0 :: rest) = feedNames rest := by
        simp [feedNames, List.filterMap_cons, he0]
      rw [hcd]
      rcases List.mem_cons.mp he with rfl | he2
      · rw [he0] at hnm; cases hnm
      · exact ih nid (by rw [hfeed] at hn; exact hn) e he2 nm hnm
    | some nm0 =>
      have hcd : createdDepts (e0 :: rest) nid =
          ⟨nid, nm0, deriveCode nm0, mgrOf e0⟩ :: createdDepts rest (nid + 1) := by
        simp [createdDepts, he0]
      have hfeed : feedNames (e0 :: rest) = nm0 :: feedNames rest := by
        simp [feedNames, List.filterMap_cons, he0]
      rw [hcd]
      rw [hfeed] at hn
      rcases List.mem_cons.mp he with rfl | he2
      · rw [he0] at hnm
        injection hnm with hn0
        subst hn0
        refine ⟨⟨nid, nm0, deriveCode nm0, mgrOf e⟩, ?_, rfl⟩
        exact @List.find?_cons_of_pos Department (fun x => x.name == nm0) _ _ (by simp)
      · have hnm_mem : nm ∈ feedNames rest := mem_feedNames he2 hnm
        have hne : nm0 ≠ nm := by
          intro hEq
          exact (List.nodup_cons.mp hn).1 (hEq ▸ hnm_mem)
        have hneg : ¬ ((fun x : Department => x.name == nm)
            ⟨nid, nm0, deriveCode nm0, mgrOf e0⟩ = true) := by
          simpa using hne
        rw [@List.find?_cons_of_neg Department (fun x => x.name == nm) _ _ hneg]
        exact ih (nid + 1) (List.nodup_cons.mp hn).2 e he2 nm hnm

/-- C5 counterexample: a feed repeating the name N with two different
managers.  The second run with identical data reports updated = 2, not 0,
because the stored manager flips between the two entities on every run. -/
theorem c5_counterexample :
    sync_departments [⟨some "A", some "N"⟩, ⟨some "B", some "N"⟩] ⟨[], []⟩ 0
      = (.ok (1, 1), ⟨[], [⟨0, "N", "N", "B"⟩]⟩) ∧
    sync_departments [⟨some "A", some "N"⟩, ⟨some "B", some "N"⟩]
        ⟨[], [⟨0, "N", "N", "B"⟩]⟩ 1
      = (.ok (0, 2), ⟨[], [⟨0, "N", "N", "B"⟩]⟩) ∧
    (2 : Nat) ≠ 0 :=
  ⟨rfl, rfl, by decide⟩

/-- C5 amended: starting from a store with no departments, when the feed
entries that carry a company name have pairwise-distinct names and
pairwise-distinct derived codes, the first run creates one department per
name — created equals the number of names, updated equals zero — and a
second run over the same feed returns created = 0 and updated = 0 and
leaves every Department record exactly as after the first run. -/
theorem c5_sync_idempotent (users : List ExternalUser)
    (reqs : List ServiceRequest) (nid nid2 : Nat)
    (hn : (feedNames users).Nodup)
    (hc : ((feedNames users).map deriveCode).Nodup) :
    sync_departments users ⟨reqs, []⟩ nid
      = (.ok ((feedNames users).length, 0), ⟨reqs, createdDepts users nid⟩) ∧
    sync_departments users ⟨reqs, createdDepts users nid⟩ nid2
      = (.ok (0, 0), ⟨reqs, createdDepts users nid⟩) := by
  constructor
  · have hrun := syncLoop_fresh users [] nid 0 0 hn hc
      (by intro nm _ d hd; simp at hd) (by intro nm _ d hd; simp at hd)
    simp only [sync_departments, hrun]
    simp
  · have hrun := syncLoop_stable users (createdDepts users nid) nid2 0 0
      (createdDepts_find users nid hn)
    simp only [sync_departments, hrun]

/-- Witness for C5 amended at a two-entity feed with distinct names. -/
theorem c5_sync_idempotent_witness :
    sync_departments [⟨some "A", some "X"⟩, ⟨some "B", some "Y"⟩] ⟨[], []⟩ 0
      = (.ok ((feedNames [⟨some "A", some "X"⟩, ⟨some "B", some "Y"⟩]).length, 0),
         ⟨[], createdDepts [⟨some "A", some "X"⟩, ⟨some "B", some "Y"⟩] 0⟩) ∧
    sync_departments [⟨some "A", some "X"⟩, ⟨some "B", some "Y"⟩]
        ⟨[], createdDepts [⟨some "A", some "X"⟩, ⟨some "B", some "Y"⟩] 0⟩ 7
      = (.ok (0, 0), ⟨[], createdDepts [⟨some "A", some "X"⟩, ⟨some "B", some "Y"⟩] 0⟩) :=
  c5_sync_idempotent [⟨some "A", some "X"⟩, ⟨some "B", some "Y"⟩] [] 0 7
    (by decide) (by decide)

/-- C6: for an entity carrying a company name, a creation stores exactly
the code derived as the spec words it — name uppercased, first ten
characters, spaces stripped — and the manager taken from the entity name
field with default Unknown; on an existing name match the code is never
changed and the manager is rewritten exactly when it differs. -/
theorem c6_sync_entity (depts : List Department) (nid : Nat)
    (e : ExternalUser) (nm : String) (hc : e.company_name = some nm) :
    (∀ d ds, syncStep depts nid e = (.createdDept d, ds) →
       d.name = nm ∧ d.code = specDeriveCode nm ∧
       d.manager = e.name.getD "Unknown" ∧ ds = depts ++ [d]) ∧
    (∀ d, depts.find? (fun x => x.name == nm) = some d →
       (d.manager = e.name.getD "Unknown" →
          syncStep depts nid e = (.unchangedDept, depts)) ∧
       (d.manager ≠ e.name.getD "Unknown" →
          syncStep depts nid e =
            (.updatedDept { d with manager := e.name.getD "Unknown" },
             depts.map (fun x => if x.id == d.id
               then { d with manager := e.name.getD "Unknown" } else x)) ∧
          ({ d with manager := e.name.getD "Unknown" } : Department).code
            = d.code)) := by
  constructor
  · intro d ds hstep
    cases hf : depts.find? (fun x => x.name == nm) with
    | some d1 =>
      by_cases hm : d1.manager = mgrOf e
      · rw [syncStep_unchanged depts nid e nm d1 hc hf hm] at hstep
        simp at hstep
      · rw [syncStep_update depts nid e nm d1 hc hf hm] at hstep
        simp at hstep
    | none =>
      by_cases hcode : depts.any (fun x => x.code == deriveCode nm) = true
      · rw [syncStep_integrity depts nid e nm hc hf hcode] at hstep
        simp at hstep
      · have hcode2 : depts.any (fun x => x.code == deriveCode nm) = false := by
          simpa using hcode
        rw [syncStep_create depts nid e nm hc hf hcode2] at hstep
        simp only [Prod.mk.injEq, StepResult.createdDept.injEq] at hstep
        obtain ⟨hd, hds⟩ := hstep
        subst hd
        exact ⟨rfl, deriveCode_eq_specDeriveCode nm, rfl, hds.symm⟩
  · intro d hfd
    constructor
    · intro hm
      exact syncStep_unchanged depts nid e nm d hc hfd hm
    · intro hm
      exact ⟨syncStep_update depts nid e nm d hc hfd hm, rfl⟩

/-- Witness for C6: creating from the entity Foo Bar Inc managed by Bob,
and updating the manager of an existing department X from Old to New. -/
theorem c6_sync_entity_witness :
    ((⟨0, "Foo Bar Inc", "FOOBARIN", "Bob"⟩ : Department).name = "Foo Bar Inc" ∧
     (⟨0, "Foo Bar Inc", "FOOBARIN", "Bob"⟩ : Department).code
       = specDeriveCode "Foo Bar Inc" ∧
     (⟨0, "Foo Bar Inc", "FOOBARIN", "Bob"⟩ : Department).manager
       = (⟨some "Bob", some "Foo Bar Inc"⟩ : ExternalUser).name.getD "Unknown" ∧
     [(⟨0, "Foo Bar Inc", "FOOBARIN", "Bob"⟩ : Department)]
       = [] ++ [⟨0, "Foo Bar Inc", "FOOBARIN", "Bob"⟩]) ∧
    (syncStep [⟨4, "X", "X", "Old"⟩] 5 ⟨some "New", some "X"⟩ =
       (.updatedDept { (⟨4, "X", "X", "Old"⟩ : Department) with
                       manager := (⟨some "New", some "X"⟩ : ExternalUser).name.getD "Unknown" },
        [(⟨4, "X", "X", "Old"⟩ : Department)].map (fun x => if x.id == (4 : Nat)
          then { (⟨4, "X", "X", "Old"⟩ : Department) with
                 manager := (⟨some "New", some "X"⟩ : ExternalUser).name.getD "Unknown" } else x)) ∧
     ({ (⟨4, "X", "X", "Old"⟩ : Department) with
        manager := (⟨some "New", some "X"⟩ : ExternalUser).name.getD "Unknown" } : Department).code
       = (⟨4, "X", "X", "Old"⟩ : Department).code) :=
  ⟨(c6_sync_entity [] 0 ⟨some "Bob", some "Foo Bar Inc"⟩ "Foo Bar Inc" rfl).1
     ⟨0, "Foo Bar Inc", "FOOBARIN", "Bob"⟩ [⟨0, "Foo Bar Inc", "FOOBARIN", "Bob"⟩] rfl,
   ((c6_sync_entity [⟨4, "X", "X", "Old"⟩] 5 ⟨some "New", some "X"⟩ "X" rfl).2
     ⟨4, "X", "X", "Old"⟩ rfl).2 (by decide)⟩

end RequestTracker
